import Mathlib

/-!
Shallow embedding of the book-inventory core of `library.py` (class
`LibraryDB`): the record model, CRUD, search, the lending transitions
`issue_book` and `return_book`, and the CSV bulk-transfer codec.

Modelling conventions:
* The SQLite table `books` is a list of records kept in id order (every
  query the code runs is either `WHERE id = ?` or `ORDER BY id`, so the
  id-ordered list is an equivalent representation); the `AUTOINCREMENT`
  counter is the `nextId` field.
* Raw ids reaching `_to_int` are modelled as `Option Int`: `some k` when
  the Python value parses as an integer, `none` otherwise.
* Python string falsiness (`s or default`, `if title:`) is translated
  explicitly; `year or None` becomes `orNone`.
* Python `str.strip` is `pyStrip`; Python `int(...)` on a string is
  `pyInt`; Python `str(...)` of an integer is `intToStr`.
* Exceptions (`ValueError` in the lending transitions, the
  `AttributeError` a short CSV row triggers inside the ingestion loop)
  become `Except` / an explicit error constructor.
* The CSV stream is modelled after the `csv` module has tokenised it: a
  list of rows, each a list of cell strings; the first row is the header
  consumed by `csv.DictReader`, and `fieldVal` reproduces the
  `DictReader` row dictionary (missing cells become Python `None`, here
  `Option.none`).
-/

namespace LibraryPy

/-- Book record: one row of the `books` table of `library.py`. -/
structure Record where
  id : Int
  title : String
  author : String
  year : Option Int
  isbn : String
  status : String
  issued_to : Option String
deriving DecidableEq

/-- State of the store: the `books` table in id order plus the
`AUTOINCREMENT` counter. -/
structure DB where
  books : List Record
  nextId : Int
deriving DecidableEq

/-- Freshly created table, as `_ensure` leaves it. -/
def emptyDB : DB := ⟨[], 1⟩

/-- Characters Python `str.strip` removes. -/
def isSpace (c : Char) : Bool :=
  c = ' ' || c = '\t' || c = '\n' || c = '\r' || c = '\x0B' || c = '\x0C'

/-- Strip leading and trailing whitespace from a character list. -/
def stripList (l : List Char) : List Char :=
  ((l.dropWhile isSpace).reverse.dropWhile isSpace).reverse

/-- Python `s.strip()`. -/
def pyStrip (s : String) : String := ⟨stripList s.data⟩

/-- Value of a decimal digit character. -/
def digitVal (c : Char) : Nat := c.toNat - 48

/-- Numeric value of a digit string, most significant first. -/
def digitsVal (l : List Char) : Nat := l.foldl (fun a c => a * 10 + digitVal c) 0

/-- Decimal digit test. -/
def pyIsDigit (c : Char) : Bool := 48 ≤ c.toNat && c.toNat ≤ 57

/-- Unsigned digit-run parse; `none` when empty or a non-digit occurs. -/
def pyDigits (l : List Char) : Option Nat :=
  if l = [] then none else if l.all pyIsDigit then some (digitsVal l) else none

/-- Signed integer parse on a stripped character list: one optional
sign, then decimal digits. -/
def pyIntL : List Char → Option Int
  | [] => none
  | c :: rest =>
    if c = '+' then (pyDigits rest).map (fun n => (n : Int))
    else if c = '-' then (pyDigits rest).map (fun n => -(n : Int))
    else (pyDigits (c :: rest)).map (fun n => (n : Int))

/-- Python `int(s)` on a string: surrounding whitespace ignored, one
optional sign, then decimal digits; `none` models `ValueError`. -/
def pyInt (s : String) : Option Int := pyIntL (stripList s.data)

/-- Decimal digits of `n`, accumulator style; `fuel` bounds the recursion
and any `fuel > ` number of digits gives the same result. -/
def natToCharsAux : Nat → Nat → List Char → List Char
  | 0, _, acc => acc
  | fuel + 1, n, acc =>
    let d := Char.ofNat (48 + n % 10)
    if n / 10 = 0 then d :: acc else natToCharsAux fuel (n / 10) (d :: acc)

/-- Decimal digit characters of a natural number. -/
def natToChars (n : Nat) : List Char := natToCharsAux (n + 1) n []

/-- Python `str(n)` for an integer. -/
def intToStr (n : Int) : String :=
  if n < 0 then ⟨'-' :: natToChars n.natAbs⟩ else ⟨natToChars n.natAbs⟩

/-- Python `year or None`: `0` and `None` collapse to `None`. -/
def orNone (y : Option Int) : Option Int := if y = some 0 then none else y

/-- Python `status or 'available'`: `None` and the empty string collapse
to `available`. -/
def statusOr (s : Option String) : String :=
  match s with
  | none => "available"
  | some t => if t = "" then "available" else t

/-- INSERT of `add_book`: new record with the next id, status
`available`, no borrower; returns `lastrowid` and the new state. -/
def add_book (db : DB) (title author : String) (year : Option Int) (isbn : String) :
    Int × DB :=
  (db.nextId,
   ⟨db.books ++ [⟨db.nextId, title, author, orNone year, isbn, "available", none⟩],
    db.nextId + 1⟩)

/-- UPDATE of `update_book`: full replace of the mutable fields of every
row matching the id; unparseable or unmatched ids are silent no-ops. -/
def update_book (db : DB) (bid : Option Int) (title author : String)
    (year : Option Int) (isbn : String) (status : Option String)
    (issued_to : Option String) : DB :=
  match bid with
  | none => db
  | some k =>
    ⟨db.books.map (fun x =>
        if x.id = k then
          ⟨x.id, title, author, orNone year, isbn, statusOr status, issued_to⟩
        else x),
     db.nextId⟩

/-- DELETE of `delete_book`; unparseable or unmatched ids are silent
no-ops. -/
def delete_book (db : DB) (bid : Option Int) : DB :=
  match bid with
  | none => db
  | some k => ⟨db.books.filter (fun x => x.id ≠ k), db.nextId⟩

/-- Point lookup of `get_book`. -/
def get_book (db : DB) (bid : Option Int) : Option Record :=
  match bid with
  | none => none
  | some k => db.books.find? (fun r => r.id == k)

/-- SELECT ... ORDER BY id of `list_all`. -/
def list_all (db : DB) : List Record := db.books

/-- SQL LIKE matching as SQLite evaluates it with default settings:
`%` matches any run, `_` any single character, letters compare after
ASCII case folding. -/
def likeMatch : List Char → List Char → Bool
  | [], h => h.isEmpty
  | p :: ps, h =>
    if p = '%' then h.tails.any (fun t => likeMatch ps t)
    else
      match h with
      | [] => false
      | c :: h2 => (p == '_' || p.toLower == c.toLower) && likeMatch ps h2

/-- One optional search constraint of `search`: a falsy value (absent or
empty) adds no clause, otherwise the column must match LIKE
`%needle%`. -/
def constraintOk (c : Option String) (field : String) : Bool :=
  match c with
  | none => true
  | some s => if s = "" then true else likeMatch ('%' :: (s.data ++ ['%'])) field.data

/-- Search of `search`: both constraints AND-combined over the id-ordered
table. -/
def search (db : DB) (title author : Option String) : List Record :=
  db.books.filter (fun r => constraintOk title r.title && constraintOk author r.author)

/-- Read phase of `issue_book`: the `get_book` call, its own
transaction. -/
def issueRead (db : DB) (bid : Option Int) : Option Record := get_book db bid

/-- Write phase of `issue_book`: the `update_book` call carrying the
fields of the record the read phase saw. -/
def issueWrite (db : DB) (book : Record) (borrower : String) : DB :=
  update_book db (some book.id) book.title book.author book.year book.isbn
    (some "issued") (some borrower)

/-- Lending transition `issue_book`; the error strings are the
`ValueError` messages of the source. -/
def issue_book (db : DB) (bid : Option Int) (borrower : String) : Except String DB :=
  match issueRead db bid with
  | none => Except.error "Book not found"
  | some book =>
    if book.status = "issued" then Except.error "Book already issued"
    else Except.ok (issueWrite db book borrower)

/-- State the caller observes after `issue_book`: a raised error leaves
the store untouched. -/
def applyIssue (db : DB) (bid : Option Int) (borrower : String) : DB :=
  match issue_book db bid borrower with
  | Except.ok d => d
  | Except.error _ => db

/-- Lending transition `return_book`. -/
def return_book (db : DB) (bid : Option Int) : Except String DB :=
  match get_book db bid with
  | none => Except.error "Book not found"
  | some book =>
    if book.status = "available" then Except.error "Book is not issued"
    else Except.ok (update_book db (some book.id) book.title book.author book.year
      book.isbn (some "available") none)

/-- State the caller observes after `return_book`. -/
def applyReturn (db : DB) (bid : Option Int) : DB :=
  match return_book db bid with
  | Except.ok d => d
  | Except.error _ => db

/-- Index of the last occurrence of a key in a header row. -/
def lastIdxOf : List String → String → Option Nat
  | [], _ => none
  | x :: xs, k =>
    match lastIdxOf xs k with
    | some i => some (i + 1)
    | none => if x = k then some 0 else none

/-- Value `r.get(key, '')` yields on a `csv.DictReader` row: the default
empty string when the key is not a header column, otherwise the cell at
the (last) column of that name, which is Python `None` — here `none` —
when the row is too short (`restval`). -/
def fieldVal (header row : List String) (key : String) : Option String :=
  match lastIdxOf header key with
  | none => some ""
  | some i => row.get? i

/-- Outcome of a CSV ingestion run: a returned row count, or the
`AttributeError` escaping the loop when `.strip()` hits `None`; each
`add_book` has already committed, so the state is carried either way. -/
inductive ImpResult where
  | ok (added : Nat) (db : DB)
  | err (db : DB)
deriving DecidableEq

/-- State component of an ingestion outcome. -/
def ImpResult.db : ImpResult → DB
  | .ok _ d => d
  | .err d => d

/-- Row loop of `import_csv_fileobj`: blank rows are skipped by the csv
reader, a blank trimmed title skips the row, the year cell parses via
`pyInt` with failures becoming `none`, and a missing cell (short row)
raises at the first `.strip()` on Python `None` — title first, then
author, year, isbn, matching the statement order of the source. -/
def importLoop (db : DB) (header : List String) : List (List String) → Nat → ImpResult
  | [], added => .ok added db
  | row :: rest, added =>
    if row = [] then importLoop db header rest added
    else
      match fieldVal header row "title" with
      | none => .err db
      | some t0 =>
        if pyStrip t0 = "" then importLoop db header rest added
        else
          match fieldVal header row "author", fieldVal header row "year",
              fieldVal header row "isbn" with
          | some a0, some y0, some i0 =>
            importLoop
              (add_book db (pyStrip t0) (pyStrip a0)
                (if pyStrip y0 = "" then none else pyInt (pyStrip y0))
                (pyStrip i0)).2
              header rest (added + 1)
          | _, _, _ => .err db

/-- CSV ingestion `import_csv_fileobj`, with the stream already tokenised
into rows; `csv.DictReader` takes the first row as the header and an
empty stream yields no rows at all. -/
def import_csv_fileobj (db : DB) (rows : List (List String)) : ImpResult :=
  match rows with
  | [] => .ok 0 db
  | header :: data => importLoop db header data 0

/-- Header row `export_csv_bytes` writes. -/
def exportHeader : List String :=
  ["id", "title", "author", "year", "isbn", "status", "issued_to"]

/-- Year cell of an export row: `row[3] or ''` renders absent (and zero)
as the empty cell, any other integer in decimal. -/
def yearCell (y : Option Int) : String :=
  match y with
  | none => ""
  | some n => if n = 0 then "" else intToStr n

/-- Cell for an optional text column: `row[i] or ''`. -/
def optCell (s : Option String) : String :=
  match s with
  | none => ""
  | some t => t

/-- One data row of `export_csv_bytes`; for the string columns
`row[i] or ''` is the identity on present values and renders the empty
string unchanged. -/
def exportRow (r : Record) : List String :=
  [intToStr r.id, r.title, r.author, yearCell r.year, r.isbn, r.status,
   optCell r.issued_to]

/-- CSV export `export_csv_bytes`, at row granularity: the fixed header
followed by one row per record of `list_all`. -/
def export_csv_bytes (db : DB) : List (List String) :=
  exportHeader :: (list_all db).map exportRow

/-- Lending invariant of the spec: status `issued` exactly when a
borrower is recorded. -/
def Inv (db : DB) : Prop :=
  ∀ r ∈ db.books, (r.status = "issued" ↔ r.issued_to ≠ none)

/-- No stored record carries year zero. -/
def NoYearZero (db : DB) : Prop := ∀ r ∈ db.books, r.year ≠ some 0

/-- Representation invariant: the table list is in strictly increasing
id order. -/
def IdSorted (db : DB) : Prop := db.books.Pairwise (fun a b => a.id < b.id)

/-- ASCII lowercase image of a character list, the case folding SQLite
LIKE applies. -/
def lowerL (l : List Char) : List Char := l.map Char.toLower

/-- Plain prefix test on character lists. -/
def leadsWith : List Char → List Char → Bool
  | [], _ => true
  | _ :: _, [] => false
  | c :: s, d :: h => c == d && leadsWith s h

/-- Spec-side definition (from the words of the spec, for comparison
with `search`): case-insensitive substring containment. -/
def ciSubstring (needle hay : String) : Bool :=
  (lowerL hay.data).tails.any (fun t => leadsWith (lowerL needle.data) t)

/-- Spec-side definition: one search constraint as the spec words it,
with the same falsy-is-unconstrained convention the code uses. -/
def specConstraint (c : Option String) (field : String) : Bool :=
  match c with
  | none => true
  | some s => if s = "" then true else ciSubstring s field

/-- Spec-side definition: search as case-insensitive substring match on
the provided fields, AND-combined, over the id-ordered table. -/
def specSearch (db : DB) (title author : Option String) : List Record :=
  db.books.filter (fun r =>
    specConstraint title r.title && specConstraint author r.author)

/-- Constraint values free of the SQL LIKE wildcard characters. -/
def wildcardFree (c : Option String) : Bool :=
  match c with
  | none => true
  | some s => s.data.all (fun ch => ch ≠ '%' && ch ≠ '_')

/-- Fresh records ingestion creates from a list of source records, ids
assigned sequentially: used to state the export round trip. -/
def freshRecs (start : Int) : List Record → List Record
  | [] => []
  | r :: rs =>
    ⟨start, r.title, r.author, r.year, r.isbn, "available", none⟩ ::
      freshRecs (start + 1) rs

instance (db : DB) : Decidable (Inv db) :=
  List.decidableBAll _ db.books

instance (db : DB) : Decidable (NoYearZero db) :=
  List.decidableBAll _ db.books

instance (db : DB) : Decidable (IdSorted db) :=
  inferInstanceAs (Decidable (List.Pairwise _ _))

lemma orNone_eq_self {y : Option Int} (h : y ≠ some 0) : orNone y = y := by
  simp [orNone, h]

lemma orNone_ne_zero (y : Option Int) : orNone y ≠ some 0 := by
  rcases y with _ | n
  · simp [orNone]
  · by_cases h : n = 0 <;> simp [orNone, h]

lemma statusOr_issued : statusOr (some "issued") = "issued" := rfl

lemma statusOr_available : statusOr (some "available") = "available" := rfl

/-- C1: `issue_book` fails with the not-found error when the id resolves
to no record, fails with the already-issued error when the record has
status `issued` while the store stays unchanged, and on an `available`
record succeeds, replacing only status and borrower of that record. -/
theorem C1_issue_book_spec (db : DB) (bid : Option Int) (b : String) :
    (get_book db bid = none → issue_book db bid b = Except.error "Book not found") ∧
    (∀ r, get_book db bid = some r → r.status = "issued" →
      issue_book db bid b = Except.error "Book already issued" ∧
      applyIssue db bid b = db) ∧
    (∀ r, get_book db bid = some r → r.status = "available" → r.year ≠ some 0 →
      issue_book db bid b = Except.ok
        ⟨db.books.map (fun x =>
            if x.id = r.id then
              ⟨x.id, r.title, r.author, r.year, r.isbn, "issued", some b⟩
            else x),
          db.nextId⟩) := by
  refine ⟨?_, ?_, ?_⟩
  · intro h
    simp [issue_book, issueRead, h]
  · intro r h hs
    have he : issue_book db bid b = Except.error "Book already issued" := by
      simp [issue_book, issueRead, h, hs]
    exact ⟨he, by simp [applyIssue, he]⟩
  · intro r h hs hy
    simp [issue_book, issueRead, h, hs, issueWrite, update_book,
      orNone_eq_self hy, statusOr_issued]

/-- Witness for C1: issuing an available concrete book succeeds with the
expected updated store. -/
theorem C1_issue_book_spec_witness :
    issue_book ⟨[⟨1, "Dune", "Herbert", some 1965, "123", "available", none⟩], 2⟩
        (some 1) "Alice" =
      Except.ok ⟨[⟨1, "Dune", "Herbert", some 1965, "123", "issued", some "Alice"⟩], 2⟩ := by
  have h := (C1_issue_book_spec
      ⟨[⟨1, "Dune", "Herbert", some 1965, "123", "available", none⟩], 2⟩
      (some 1) "Alice").2.2
      ⟨1, "Dune", "Herbert", some 1965, "123", "available", none⟩
      (by decide) (by decide) (by decide)
  exact h.trans (by rfl)

/-- C2: `return_book` fails with the not-found error when the id resolves
to no record, fails with the not-issued error on an `available` record
while the store stays unchanged, and on an `issued` record succeeds,
setting status back to `available` and clearing the borrower; a second
return right after then fails with the not-issued error. -/
theorem C2_return_book_spec (db : DB) (bid : Option Int) :
    (get_book db bid = none → return_book db bid = Except.error "Book not found") ∧
    (∀ r, get_book db bid = some r → r.status = "available" →
      return_book db bid = Except.error "Book is not issued" ∧
      applyReturn db bid = db) ∧
    (∀ r, get_book db bid = some r → r.status = "issued" → r.year ≠ some 0 →
      return_book db bid = Except.ok
        ⟨db.books.map (fun x =>
            if x.id = r.id then
              ⟨x.id, r.title, r.author, r.year, r.isbn, "available", none⟩
            else x),
          db.nextId⟩ ∧
      return_book
        ⟨db.books.map (fun x =>
            if x.id = r.id then
              ⟨x.id, r.title, r.author, r.year, r.isbn, "available", none⟩
            else x),
          db.nextId⟩ bid = Except.error "Book is not issued") := by
  refine ⟨?_, ?_, ?_⟩
  · intro h
    simp [return_book, h]
  · intro r h hs
    have he : return_book db bid = Except.error "Book is not issued" := by
      simp [return_book, h, hs]
    exact ⟨he, by simp [applyReturn, he]⟩
  · intro r h hs hy
    have hne : r.status ≠ "available" := by
      rw [hs]; decide
    constructor
    · simp [return_book, h, hne, update_book, orNone_eq_self hy, statusOr_available]
    · rcases bid with _ | k
      · simp [get_book] at h
      · have hf : db.books.find? (fun x => x.id == k) = some r := h
        have hg : get_book
            ⟨db.books.map (fun x =>
                if x.id = r.id then
                  ⟨x.id, r.title, r.author, r.year, r.isbn, "available", none⟩
                else x),
              db.nextId⟩ (some k) =
            some (if r.id = r.id then
                ⟨r.id, r.title, r.author, r.year, r.isbn, "available", none⟩
              else r) := by
          show List.find? _ (List.map _ _) = _
          rw [List.find?_map]
          have hp : ((fun x : Record => x.id == k) ∘ fun x : Record =>
              if x.id = r.id then
                ⟨x.id, r.title, r.author, r.year, r.isbn, "available", none⟩
              else x) = fun x : Record => x.id == k := by
            funext x
            by_cases hx : x.id = r.id <;> simp [hx]
          rw [hp, hf]
          rfl
        simp only [if_pos rfl] at hg
        simp [return_book, hg]

/-- Witness for C2: returning an issued concrete book succeeds and a
second return fails. -/
theorem C2_return_book_spec_witness :
    return_book ⟨[⟨1, "Dune", "Herbert", some 1965, "123", "issued", some "Alice"⟩], 2⟩
        (some 1) =
      Except.ok ⟨[⟨1, "Dune", "Herbert", some 1965, "123", "available", none⟩], 2⟩ ∧
    return_book ⟨[⟨1, "Dune", "Herbert", some 1965, "123", "available", none⟩], 2⟩
        (some 1) = Except.error "Book is not issued" := by
  have h := (C2_return_book_spec
      ⟨[⟨1, "Dune", "Herbert", some 1965, "123", "issued", some "Alice"⟩], 2⟩
      (some 1)).2.2
      ⟨1, "Dune", "Herbert", some 1965, "123", "issued", some "Alice"⟩
      (by decide) (by decide) (by decide)
  exact ⟨h.1.trans (by rfl), by
    have h2 := h.2
    rw [show (⟨[⟨1, "Dune", "Herbert", some 1965, "123", "issued",
        some "Alice"⟩], 2⟩ : DB).books.map (fun x =>
          if x.id = (1 : Int) then
            ⟨x.id, "Dune", "Herbert", some 1965, "123", "available", none⟩
          else x) =
        [⟨1, "Dune", "Herbert", some 1965, "123", "available", none⟩] from by decide] at h2
    exact h2⟩

/-- C9: `update_book` and `delete_book` with an unparseable id or with an
id matching no record leave the store unchanged, and deleting a missing
id twice is the same no-op both times. -/
theorem C9_noop_ids (db : DB) (t a i : String) (y : Option Int)
    (s it : Option String) (k : Int) :
    update_book db none t a y i s it = db ∧
    delete_book db none = db ∧
    ((∀ r ∈ db.books, r.id ≠ k) →
      update_book db (some k) t a y i s it = db ∧
      delete_book db (some k) = db ∧
      delete_book (delete_book db (some k)) (some k) = db) := by
  refine ⟨rfl, rfl, fun h => ?_⟩
  have hd : delete_book db (some k) = db := by
    show DB.mk (db.books.filter _) db.nextId = db
    rw [List.filter_eq_self.mpr (fun r hr => by simp [h r hr])]
  refine ⟨?_, hd, by rw [hd, hd]⟩
  show DB.mk (db.books.map _) db.nextId = db
  rw [List.map_congr_left (g := id) (fun r hr => by simp [h r hr]), List.map_id]

lemma Inv_add (db : DB) (t a : String) (y : Option Int) (i : String)
    (h : Inv db) : Inv (add_book db t a y i).2 := by
  intro r hr
  rcases List.mem_append.1 hr with hm | hm
  · exact h r hm
  · simp only [List.mem_singleton] at hm
    subst hm
    show "available" = "issued" ↔ (none : Option String) ≠ none
    decide

lemma Inv_update (db : DB) (bid : Option Int) (t a : String) (y : Option Int)
    (i : String) (s it : Option String) (h : Inv db)
    (hc : statusOr s = "issued" ↔ it ≠ none) :
    Inv (update_book db bid t a y i s it) := by
  rcases bid with _ | k
  · exact h
  · intro r hr
    rcases List.mem_map.1 hr with ⟨x, hx, rfl⟩
    by_cases hid : x.id = k
    · rw [if_pos hid]
      exact hc
    · rw [if_neg hid]
      exact h x hx

lemma Inv_delete (db : DB) (bid : Option Int) (h : Inv db) :
    Inv (delete_book db bid) := by
  rcases bid with _ | k
  · exact h
  · intro r hr
    exact h r (List.mem_filter.1 hr).1

lemma Inv_issue (db : DB) (bid : Option Int) (b : String) (h : Inv db) :
    Inv (applyIssue db bid b) := by
  rw [applyIssue, issue_book]
  rcases hr : issueRead db bid with _ | book
  · exact h
  · by_cases hb : book.status = "issued"
    · simp only [if_pos hb]
      exact h
    · simp only [if_neg hb]
      exact Inv_update _ _ _ _ _ _ _ _ h (by simp [statusOr_issued])

lemma Inv_return (db : DB) (bid : Option Int) (h : Inv db) :
    Inv (applyReturn db bid) := by
  rw [applyReturn, return_book]
  rcases hr : get_book db bid with _ | book
  · exact h
  · by_cases hb : book.status = "available"
    · simp only [if_pos hb]
      exact h
    · simp only [if_neg hb]
      exact Inv_update _ _ _ _ _ _ _ _ h (by rw [statusOr_available]; simp)

/-- Records of an ingestion outcome: each was already present or is a
freshly added row with status `available`, no borrower, and a year that
is never zero. -/
lemma importLoop_new (header : List String) (rows : List (List String)) :
    ∀ db added, ∀ r ∈ (importLoop db header rows added).db.books,
      r ∈ db.books ∨
        (r.status = "available" ∧ r.issued_to = none ∧ r.year ≠ some 0) := by
  induction rows with
  | nil => exact fun db added r hr => Or.inl hr
  | cons row rest ih =>
    intro db added r hr
    simp only [importLoop] at hr
    split at hr
    · exact ih db added r hr
    · split at hr
      · exact Or.inl hr
      · split at hr
        · exact ih db added r hr
        · split at hr
          · rcases ih _ _ r hr with hm | hnew
            · rcases List.mem_append.1 hm with h1 | h1
              · exact Or.inl h1
              · simp only [List.mem_singleton] at h1
                subst h1
                exact Or.inr ⟨rfl, rfl, orNone_ne_zero _⟩
            · exact Or.inr hnew
          · exact Or.inl hr

/-- C3 counterexample: `update_book` called with status `issued` and no
borrower breaks the lending invariant on a store that satisfied it. -/
theorem C3_invariant_counterexample :
    Inv ⟨[⟨1, "Dune", "Herbert", some 1965, "123", "available", none⟩], 2⟩ ∧
    ¬ Inv (update_book
        ⟨[⟨1, "Dune", "Herbert", some 1965, "123", "available", none⟩], 2⟩
        (some 1) "Dune" "Herbert" (some 1965) "123" (some "issued") none) := by
  decide

/-- C3 amended: add, delete, issue, return and CSV ingestion preserve the
lending invariant for arbitrary arguments; `update_book` preserves it
when its own status and borrower arguments satisfy it. -/
theorem C3_invariant_amended :
    (∀ db t a y i, Inv db → Inv (add_book db t a y i).2) ∧
    (∀ db bid t a y i s it, Inv db → (statusOr s = "issued" ↔ it ≠ none) →
      Inv (update_book db bid t a y i s it)) ∧
    (∀ db bid, Inv db → Inv (delete_book db bid)) ∧
    (∀ db bid b, Inv db → Inv (applyIssue db bid b)) ∧
    (∀ db bid, Inv db → Inv (applyReturn db bid)) ∧
    (∀ db rows, Inv db → Inv (import_csv_fileobj db rows).db) := by
  refine ⟨Inv_add, fun db bid t a y i s it h hc => Inv_update db bid t a y i s it h hc,
    Inv_delete, Inv_issue, Inv_return, fun db rows h => ?_⟩
  rcases rows with _ | ⟨header, data⟩
  · exact h
  · intro r hr
    rcases importLoop_new header data db 0 r hr with hm | ⟨hs, hi, _⟩
    · exact h r hm
    · rw [hs, hi]
      decide

/-- Witness for C3 amended: the preservation statements applied on a
concrete store, including an update with consistent arguments. -/
theorem C3_invariant_amended_witness :
    Inv (update_book
        ⟨[⟨1, "Dune", "Herbert", some 1965, "123", "available", none⟩], 2⟩
        (some 1) "Dune" "Herbert" (some 1965) "123" (some "issued")
        (some "Bob")) ∧
    Inv (applyIssue
        ⟨[⟨1, "Dune", "Herbert", some 1965, "123", "available", none⟩], 2⟩
        (some 1) "Alice") := by
  refine ⟨C3_invariant_amended.2.1
      ⟨[⟨1, "Dune", "Herbert", some 1965, "123", "available", none⟩], 2⟩
      (some 1) "Dune" "Herbert" (some 1965) "123" (some "issued") (some "Bob")
      (by decide) (by decide),
    C3_invariant_amended.2.2.2.1
      ⟨[⟨1, "Dune", "Herbert", some 1965, "123", "available", none⟩], 2⟩
      (some 1) "Alice" (by decide)⟩

/-- C4: the lending transition is a read phase and a write phase in
separate transactions with no lock; under the interleaving where both
calls run their read phase before either write phase, both validations
pass on the same `available` record, both writes then apply, and the
final borrower is the second writer — both concurrent issues succeed,
violating lending exclusivity. -/
theorem C4_issue_race :
    issueRead ⟨[⟨1, "Dune", "Herbert", some 1965, "123", "available", none⟩], 2⟩
        (some 1) =
      some ⟨1, "Dune", "Herbert", some 1965, "123", "available", none⟩ ∧
    (⟨1, "Dune", "Herbert", some 1965, "123", "available", none⟩ : Record).status ≠
      "issued" ∧
    issueWrite
        (issueWrite ⟨[⟨1, "Dune", "Herbert", some 1965, "123", "available", none⟩], 2⟩
          ⟨1, "Dune", "Herbert", some 1965, "123", "available", none⟩ "Alice")
        ⟨1, "Dune", "Herbert", some 1965, "123", "available", none⟩ "Bob" =
      ⟨[⟨1, "Dune", "Herbert", some 1965, "123", "issued", some "Bob"⟩], 2⟩ := by
  exact ⟨rfl, by decide, rfl⟩

/-- C6: with the standard four-column header, the blank-title row of
Scenario 4 is skipped and the count is 1, but a data row with fewer
cells than the header makes the loop hit Python `None` at `.strip()`
and raise instead of adding the row and returning a count. -/
theorem C6_import_per_row_policy :
    import_csv_fileobj emptyDB
        [["title", "author", "year", "isbn"],
         ["Dune", "Herbert", "1965", "123"],
         ["", "Nobody", "2000", ""]] =
      ImpResult.ok 1 ⟨[⟨1, "Dune", "Herbert", some 1965, "123", "available", none⟩], 2⟩ ∧
    import_csv_fileobj emptyDB
        [["title", "author", "year", "isbn"], ["Dune"]] =
      ImpResult.err emptyDB := by
  exact ⟨rfl, rfl⟩

/-- C7: a malformed (short) data row aborts the whole batch: the row
before it is committed, the row after it is never processed, and an
error — not an added count — surfaces to the caller. -/
theorem C7_import_abort_mid_batch :
    import_csv_fileobj emptyDB
        [["title", "author", "year", "isbn"],
         ["A", "B", "2000", "9"],
         ["Dune"],
         ["X", "Y", "1", "2"]] =
      ImpResult.err ⟨[⟨1, "A", "B", some 2000, "9", "available", none⟩], 2⟩ := by
  exact rfl

lemma NYZ_add (db : DB) (t a : String) (y : Option Int) (i : String)
    (h : NoYearZero db) : NoYearZero (add_book db t a y i).2 := by
  intro r hr
  rcases List.mem_append.1 hr with hm | hm
  · exact h r hm
  · simp only [List.mem_singleton] at hm
    subst hm
    exact orNone_ne_zero y

lemma NYZ_update (db : DB) (bid : Option Int) (t a : String) (y : Option Int)
    (i : String) (s it : Option String) (h : NoYearZero db) :
    NoYearZero (update_book db bid t a y i s it) := by
  rcases bid with _ | k
  · exact h
  · intro r hr
    rcases List.mem_map.1 hr with ⟨x, hx, rfl⟩
    by_cases hid : x.id = k
    · rw [if_pos hid]
      exact orNone_ne_zero y
    · rw [if_neg hid]
      exact h x hx

/-- C10: `year or None` stores zero as absent in both `add_book` and
`update_book`; the no-year-zero property holds of the fresh store and is
preserved by every operation; and export renders an absent year as the
empty cell. -/
theorem C10_year_zero :
    (∀ db t a i, (add_book db t a (some 0) i).2.books =
      db.books ++ [⟨db.nextId, t, a, none, i, "available", none⟩]) ∧
    (∀ db k t a i s it, update_book db (some k) t a (some 0) i s it =
      ⟨db.books.map (fun x =>
          if x.id = k then ⟨x.id, t, a, none, i, statusOr s, it⟩ else x),
        db.nextId⟩) ∧
    NoYearZero emptyDB ∧
    (∀ db t a y i, NoYearZero db → NoYearZero (add_book db t a y i).2) ∧
    (∀ db bid t a y i s it, NoYearZero db →
      NoYearZero (update_book db bid t a y i s it)) ∧
    (∀ db bid, NoYearZero db → NoYearZero (delete_book db bid)) ∧
    (∀ db bid b, NoYearZero db → NoYearZero (applyIssue db bid b)) ∧
    (∀ db bid, NoYearZero db → NoYearZero (applyReturn db bid)) ∧
    (∀ db rows, NoYearZero db → NoYearZero (import_csv_fileobj db rows).db) ∧
    (∀ r : Record, r.year = none → (exportRow r).get? 3 = some "") := by
  refine ⟨fun db t a i => rfl, fun db k t a i s it => rfl, by decide,
    NYZ_add, NYZ_update, ?_, ?_, ?_, ?_, ?_⟩
  · rintro db (_ | k) h
    · exact h
    · intro r hr
      exact h r (List.mem_filter.1 hr).1
  · intro db bid b h
    rw [applyIssue, issue_book]
    rcases hr : issueRead db bid with _ | book
    · exact h
    · by_cases hb : book.status = "issued"
      · simp only [if_pos hb]
        exact h
      · simp only [if_neg hb]
        exact NYZ_update _ _ _ _ _ _ _ _ h
  · intro db bid h
    rw [applyReturn, return_book]
    rcases hr : get_book db bid with _ | book
    · exact h
    · by_cases hb : book.status = "available"
      · simp only [if_pos hb]
        exact h
      · simp only [if_neg hb]
        exact NYZ_update _ _ _ _ _ _ _ _ h
  · intro db rows h
    rcases rows with _ | ⟨header, data⟩
    · exact h
    · intro r hr
      rcases importLoop_new header data db 0 r hr with hm | ⟨_, _, hy⟩
      · exact h r hm
      · exact hy
  · intro r hy
    simp [exportRow, yearCell, hy]

/-- Witness for C10: the preservation statements applied on a concrete
store, plus a concrete zero-year add. -/
theorem C10_year_zero_witness :
    (add_book ⟨[⟨1, "Dune", "Herbert", some 1965, "123", "available", none⟩], 2⟩
        "Odd" "X" (some 0) "9").2.books =
      [⟨1, "Dune", "Herbert", some 1965, "123", "available", none⟩,
       ⟨2, "Odd", "X", none, "9", "available", none⟩] ∧
    NoYearZero (add_book
        ⟨[⟨1, "Dune", "Herbert", some 1965, "123", "available", none⟩], 2⟩
        "Odd" "X" (some 0) "9").2 := by
  refine ⟨(C10_year_zero.1
      ⟨[⟨1, "Dune", "Herbert", some 1965, "123", "available", none⟩], 2⟩
      "Odd" "X" "9").trans (by decide),
    C10_year_zero.2.2.2.1
      ⟨[⟨1, "Dune", "Herbert", some 1965, "123", "available", none⟩], 2⟩
      "Odd" "X" (some 0) "9" (by decide)⟩

/-- Witness for C9: no-op behavior on a concrete store and the missing
id 7. -/
theorem C9_noop_ids_witness :
    update_book ⟨[⟨1, "Dune", "Herbert", some 1965, "123", "available", none⟩], 2⟩
        (some 7) "X" "Y" none "Z" none none =
      ⟨[⟨1, "Dune", "Herbert", some 1965, "123", "available", none⟩], 2⟩ ∧
    delete_book (delete_book
        ⟨[⟨1, "Dune", "Herbert", some 1965, "123", "available", none⟩], 2⟩ (some 7))
        (some 7) =
      ⟨[⟨1, "Dune", "Herbert", some 1965, "123", "available", none⟩], 2⟩ := by
  have h := (C9_noop_ids
      ⟨[⟨1, "Dune", "Herbert", some 1965, "123", "available", none⟩], 2⟩
      "X" "Y" "Z" none none none 7).2.2 (by decide)
  exact ⟨h.1, h.2.2⟩

lemma any_congr {α : Type} {l : List α} {p q : α → Bool}
    (h : ∀ x ∈ l, p x = q x) : l.any p = l.any q := by
  induction l with
  | nil => rfl
  | cons x l ih =>
    simp only [List.any_cons]
    rw [h x (List.mem_cons_self x l), ih (fun y hy => h y (List.mem_cons.2 (Or.inr hy)))]

lemma likeMatch_pct (ps : List Char) (h : List Char) :
    likeMatch ('%' :: ps) h = h.tails.any (fun t => likeMatch ps t) := by
  simp [likeMatch]

lemma likeMatch_onlypct (h : List Char) : likeMatch ['%'] h = true := by
  rw [likeMatch_pct]
  exact List.any_eq_true.2 ⟨[], (List.mem_tails _ _).2 List.nil_suffix, rfl⟩

lemma likeMatch_lit (s : List Char) (hs : ∀ c ∈ s, c ≠ '%' ∧ c ≠ '_') :
    ∀ h, likeMatch (s ++ ['%']) h = leadsWith (lowerL s) (lowerL h) := by
  induction s with
  | nil =>
    intro h
    rw [List.nil_append, likeMatch_onlypct]
    rfl
  | cons c s ih =>
    intro h
    have hc := hs c (List.mem_cons_self c s)
    have hs2 : ∀ x ∈ s, x ≠ '%' ∧ x ≠ '_' :=
      fun x hx => hs x (List.mem_cons.2 (Or.inr hx))
    rw [List.cons_append]
    cases h with
    | nil =>
      simp [likeMatch, hc.1, lowerL, leadsWith]
    | cons d h2 =>
      simp only [likeMatch, if_neg hc.1]
      have hu : (c == '_') = false := by
        simp [hc.2]
      rw [hu, Bool.false_or, ih hs2 h2]
      rfl

lemma tails_lowerL (h : List Char) : (lowerL h).tails = h.tails.map lowerL := by
  induction h with
  | nil => rfl
  | cons c h ih =>
    show ((c.toLower :: lowerL h).tails) = _
    rw [List.tails_cons, List.tails_cons, List.map_cons, ih]
    rfl

lemma likeMatch_substring (s : List Char) (hs : ∀ c ∈ s, c ≠ '%' ∧ c ≠ '_')
    (h : List Char) :
    likeMatch ('%' :: (s ++ ['%'])) h =
      (lowerL h).tails.any (fun t => leadsWith (lowerL s) t) := by
  rw [likeMatch_pct]
  have h1 : h.tails.any (fun t => likeMatch (s ++ ['%']) t) =
      h.tails.any (fun t => leadsWith (lowerL s) (lowerL t)) :=
    any_congr (fun t _ => likeMatch_lit s hs t)
  rw [h1, tails_lowerL, List.any_map]
  rfl

lemma constraintOk_eq_spec (c : Option String) (hc : wildcardFree c = true)
    (f : String) : constraintOk c f = specConstraint c f := by
  rcases c with _ | s
  · rfl
  · show constraintOk (some s) f = specConstraint (some s) f
    rw [constraintOk, specConstraint]
    by_cases he : s = ""
    · rw [if_pos he, if_pos he]
    · rw [if_neg he, if_neg he]
      have hs : ∀ ch ∈ s.data, ch ≠ '%' ∧ ch ≠ '_' := by
        have := List.all_eq_true.1 hc
        intro ch hch
        have h2 := this ch hch
        simpa using h2
      exact likeMatch_substring s.data hs f.data

/-- C8 counterexample: searching for the one-character title constraint
made of the LIKE wildcard returns a record whose title does not contain
that string, because the constraint is spliced into the LIKE pattern
unescaped; the spec-side substring search returns nothing. -/
theorem C8_search_counterexample :
    search ⟨[⟨1, "Dune", "Herbert", some 1965, "123", "available", none⟩], 2⟩
        (some "%") none =
      [⟨1, "Dune", "Herbert", some 1965, "123", "available", none⟩] ∧
    specSearch ⟨[⟨1, "Dune", "Herbert", some 1965, "123", "available", none⟩], 2⟩
        (some "%") none = [] := by
  exact ⟨rfl, rfl⟩

/-- C8 amended: for constraint strings free of the LIKE wildcards `%`
and `_`, search returns exactly the records whose title (resp. author)
contains the constraint as a case-insensitive substring, AND-combined;
results inherit the ascending id order of the table; and with no
constraints search coincides with `list_all`. -/
theorem C8_search_amended :
    (∀ db t a, wildcardFree t = true → wildcardFree a = true →
      search db t a = specSearch db t a) ∧
    (∀ db t a, IdSorted db →
      (search db t a).Pairwise (fun x y => x.id < y.id)) ∧
    (∀ db, search db none none = list_all db) := by
  refine ⟨fun db t a ht ha => List.filter_congr (fun r _ => ?_),
    fun db t a hs => List.Pairwise.sublist (List.filter_sublist _) hs,
    fun db => ?_⟩
  · rw [constraintOk_eq_spec t ht, constraintOk_eq_spec a ha]
  · show db.books.filter _ = db.books
    have h : (fun r : Record =>
        constraintOk none r.title && constraintOk none r.author) =
        fun _ => true := by
      funext r
      rfl
    rw [h, List.filter_true]

/-- Witness for C8 amended: Scenario 5, the constraint `dun` on a
catalog with Dune and Foundation, and the ordering statement on the
same catalog. -/
theorem C8_search_amended_witness :
    search ⟨[⟨1, "Dune", "Herbert", some 1965, "123", "available", none⟩,
             ⟨2, "Foundation", "Asimov", some 1951, "456", "available", none⟩], 3⟩
        (some "dun") none =
      specSearch ⟨[⟨1, "Dune", "Herbert", some 1965, "123", "available", none⟩,
             ⟨2, "Foundation", "Asimov", some 1951, "456", "available", none⟩], 3⟩
        (some "dun") none ∧
    specSearch ⟨[⟨1, "Dune", "Herbert", some 1965, "123", "available", none⟩,
             ⟨2, "Foundation", "Asimov", some 1951, "456", "available", none⟩], 3⟩
        (some "dun") none =
      [⟨1, "Dune", "Herbert", some 1965, "123", "available", none⟩] ∧
    (search ⟨[⟨1, "Dune", "Herbert", some 1965, "123", "available", none⟩,
             ⟨2, "Foundation", "Asimov", some 1951, "456", "available", none⟩], 3⟩
        (some "dun") none).Pairwise (fun x y => x.id < y.id) := by
  refine ⟨C8_search_amended.1
      ⟨[⟨1, "Dune", "Herbert", some 1965, "123", "available", none⟩,
        ⟨2, "Foundation", "Asimov", some 1951, "456", "available", none⟩], 3⟩
      (some "dun") none (by decide) (by decide),
    rfl,
    C8_search_amended.2.1
      ⟨[⟨1, "Dune", "Herbert", some 1965, "123", "available", none⟩,
        ⟨2, "Foundation", "Asimov", some 1951, "456", "available", none⟩], 3⟩
      (some "dun") none (by decide)⟩

lemma digitsVal_foldl (l : List Char) : ∀ a : Nat,
    l.foldl (fun x c => x * 10 + digitVal c) a = a * 10 ^ l.length + digitsVal l := by
  induction l with
  | nil => intro a; simp [digitsVal]
  | cons c l ih =>
    intro a
    show l.foldl _ (a * 10 + digitVal c) = _
    rw [ih (a * 10 + digitVal c)]
    have hd : digitsVal (c :: l) = digitVal c * 10 ^ l.length + digitsVal l := by
      show l.foldl _ (0 * 10 + digitVal c) = _
      rw [ih (0 * 10 + digitVal c)]
      ring
    rw [hd, List.length_cons, pow_succ]
    ring

lemma digitsVal_cons (c : Char) (l : List Char) :
    digitsVal (c :: l) = digitVal c * 10 ^ l.length + digitsVal l := by
  show l.foldl _ (0 * 10 + digitVal c) = _
  rw [digitsVal_foldl]
  ring

lemma digitChar_is (k : Nat) (hk : k < 10) :
    pyIsDigit (Char.ofNat (48 + k)) = true ∧ digitVal (Char.ofNat (48 + k)) = k := by
  interval_cases k <;> exact ⟨rfl, rfl⟩

lemma natToCharsAux_val : ∀ fuel, ∀ n acc, n < 10 ^ fuel →
    digitsVal (natToCharsAux fuel n acc) = n * 10 ^ acc.length + digitsVal acc := by
  intro fuel
  induction fuel with
  | zero =>
    intro n acc hn
    have hz : n = 0 := by simpa using hn
    subst hz
    simp [natToCharsAux]
  | succ f ih =>
    intro n acc hn
    rw [natToCharsAux]
    have hm : n % 10 < 10 := Nat.mod_lt _ (by norm_num)
    by_cases h0 : n / 10 = 0
    · rw [if_pos h0]
      have hn10 : n < 10 := (Nat.div_eq_zero_iff (by norm_num)).1 h0
      rw [digitsVal_cons, (digitChar_is (n % 10) hm).2, Nat.mod_eq_of_lt hn10]
    · rw [if_neg h0]
      have hdivlt : n / 10 < 10 ^ f := by
        rw [Nat.div_lt_iff_lt_mul (by norm_num : (0:ℕ) < 10)]
        calc n < 10 ^ (f + 1) := hn
          _ = 10 ^ f * 10 := by rw [pow_succ]
      rw [ih (n / 10) _ hdivlt, digitsVal_cons, (digitChar_is (n % 10) hm).2,
        List.length_cons]
      have hnm : 10 * (n / 10) + n % 10 = n := Nat.div_add_mod n 10
      have hexp : n / 10 * 10 ^ (acc.length + 1) +
          (n % 10 * 10 ^ acc.length + digitsVal acc) =
          (10 * (n / 10) + n % 10) * 10 ^ acc.length + digitsVal acc := by
        rw [pow_succ]
        ring
      rw [hexp, hnm]

lemma natToCharsAux_shape : ∀ fuel n acc,
    ∃ pre, natToCharsAux fuel n acc = pre ++ acc ∧
      (∀ c ∈ pre, pyIsDigit c = true) ∧ (1 ≤ fuel → pre ≠ []) := by
  intro fuel
  induction fuel with
  | zero => exact fun n acc => ⟨[], rfl, by simp, by omega⟩
  | succ f ih =>
    intro n acc
    rw [natToCharsAux]
    have hm : n % 10 < 10 := Nat.mod_lt _ (by norm_num)
    by_cases h0 : n / 10 = 0
    · rw [if_pos h0]
      exact ⟨[Char.ofNat (48 + n % 10)], rfl,
        fun c hc => by
          simp only [List.mem_singleton] at hc
          subst hc
          exact (digitChar_is (n % 10) hm).1,
        fun _ => by simp⟩
    · rw [if_neg h0]
      obtain ⟨pre, heq, hdig, _⟩ := ih (n / 10) (Char.ofNat (48 + n % 10) :: acc)
      refine ⟨pre ++ [Char.ofNat (48 + n % 10)], ?_, ?_, fun _ => by simp⟩
      · rw [heq, List.append_assoc]
        rfl
      · intro c hc
        rcases List.mem_append.1 hc with hc1 | hc1
        · exact hdig c hc1
        · simp only [List.mem_singleton] at hc1
          subst hc1
          exact (digitChar_is (n % 10) hm).1

lemma natToChars_spec (n : Nat) :
    (∀ c ∈ natToChars n, pyIsDigit c = true) ∧ natToChars n ≠ [] ∧
    digitsVal (natToChars n) = n := by
  obtain ⟨pre, heq, hdig, hne⟩ := natToCharsAux_shape (n + 1) n []
  rw [List.append_nil] at heq
  have hlt : n < 10 ^ (n + 1) := by
    have h1 : n < 10 ^ n := Nat.lt_pow_self (by norm_num) n
    exact lt_of_lt_of_le h1 (Nat.pow_le_pow_right (by norm_num) (by omega))
  have hv := natToCharsAux_val (n + 1) n [] hlt
  refine ⟨by rw [natToChars, heq]; exact hdig,
    by rw [natToChars, heq]; exact hne (by omega), ?_⟩
  rw [natToChars, hv]
  simp [digitsVal]

lemma not_isSpace_of_digit {c : Char} (h : pyIsDigit c = true) :
    isSpace c = false := by
  simp only [isSpace, Bool.or_eq_false_iff, decide_eq_false_iff_not]
  refine ⟨⟨⟨⟨⟨?_, ?_⟩, ?_⟩, ?_⟩, ?_⟩, ?_⟩ <;>
    (intro he; subst he; revert h; decide)

lemma dropWhile_eq_self_of (l : List Char) (h : ∀ c ∈ l, isSpace c = false) :
    l.dropWhile isSpace = l := by
  cases l with
  | nil => rfl
  | cons c l => simp [List.dropWhile_cons, h c (List.mem_cons_self c l)]

lemma stripList_eq_self (l : List Char) (h : ∀ c ∈ l, isSpace c = false) :
    stripList l = l := by
  rw [stripList, dropWhile_eq_self_of l h,
    dropWhile_eq_self_of _ (fun c hc => h c (List.mem_reverse.1 hc)),
    List.reverse_reverse]

lemma intToStr_chars (n : Int) : ∀ c ∈ (intToStr n).data, isSpace c = false := by
  rw [intToStr]
  by_cases hn : n < 0
  · rw [if_pos hn]
    intro c hc
    rcases List.mem_cons.1 hc with hc1 | hc1
    · subst hc1
      decide
    · exact not_isSpace_of_digit ((natToChars_spec n.natAbs).1 c hc1)
  · rw [if_neg hn]
    intro c hc
    exact not_isSpace_of_digit ((natToChars_spec n.natAbs).1 c hc)

lemma pyStrip_intToStr (n : Int) : pyStrip (intToStr n) = intToStr n := by
  have h : stripList (intToStr n).data = (intToStr n).data :=
    stripList_eq_self _ (intToStr_chars n)
  show String.mk (stripList (intToStr n).data) = intToStr n
  rw [h]

lemma intToStr_ne_empty (n : Int) : intToStr n ≠ "" := by
  intro h
  have hd := congrArg String.data h
  rw [intToStr] at hd
  by_cases hn : n < 0
  · rw [if_pos hn] at hd
    exact List.cons_ne_nil _ _ hd
  · rw [if_neg hn] at hd
    exact (natToChars_spec n.natAbs).2.1 hd

lemma pyDigits_natToChars (m : Nat) : pyDigits (natToChars m) = some m := by
  obtain ⟨hdig, hne, hval⟩ := natToChars_spec m
  rw [pyDigits, if_neg hne, if_pos (List.all_eq_true.2 hdig), hval]

lemma digit_not_sign {c : Char} (h : pyIsDigit c = true) : c ≠ '+' ∧ c ≠ '-' := by
  constructor <;> (intro he; subst he; revert h; decide)

lemma pyInt_intToStr (n : Int) : pyInt (intToStr n) = some n := by
  rw [pyInt, stripList_eq_self _ (intToStr_chars n)]
  rw [intToStr]
  by_cases hn : n < 0
  · rw [if_pos hn]
    show pyIntL ('-' :: natToChars n.natAbs) = some n
    rw [pyIntL, if_neg (by decide), if_pos rfl, pyDigits_natToChars]
    show some (-(n.natAbs : Int)) = some n
    have : (n.natAbs : Int) = -n := by omega
    rw [this, neg_neg]
  · rw [if_neg hn]
    show pyIntL (natToChars n.natAbs) = some n
    obtain ⟨hdig, hne, _⟩ := natToChars_spec n.natAbs
    rcases hc : natToChars n.natAbs with _ | ⟨c, rest⟩
    · exact absurd hc hne
    · have hcd : pyIsDigit c = true := by
        apply hdig
        rw [hc]
        exact List.mem_cons_self c rest
      obtain ⟨hp, hm⟩ := digit_not_sign hcd
      rw [pyIntL, if_neg hp, if_neg hm, ← hc, pyDigits_natToChars]
      show some ((n.natAbs : Nat) : Int) = some n
      have : (n.natAbs : Int) = n := by omega
      rw [this]

lemma fv_title (r : Record) :
    fieldVal exportHeader (exportRow r) "title" = some r.title := rfl

lemma fv_author (r : Record) :
    fieldVal exportHeader (exportRow r) "author" = some r.author := rfl

lemma fv_year (r : Record) :
    fieldVal exportHeader (exportRow r) "year" = some (yearCell r.year) := rfl

lemma fv_isbn (r : Record) :
    fieldVal exportHeader (exportRow r) "isbn" = some r.isbn := rfl

lemma exportRow_ne_nil (r : Record) : ¬(exportRow r = []) := by
  simp [exportRow]

lemma yearCell_roundtrip {y : Option Int} (hy : y ≠ some 0) :
    (if pyStrip (yearCell y) = "" then none else pyInt (pyStrip (yearCell y))) = y := by
  rcases y with _ | n
  · rfl
  · have hn : n ≠ 0 := fun h => hy (by rw [h])
    simp only [yearCell, if_neg hn, pyStrip_intToStr,
      if_neg (intToStr_ne_empty n), pyInt_intToStr]

/-- Ingestion of the export rows of a record list whose titles survive
trimming non-empty, whose text fields carry no surrounding whitespace
and whose years are never zero: every row is re-added with its four
text-column fields intact. -/
lemma importLoop_exportRows : ∀ (l : List Record),
    (∀ r ∈ l, pyStrip r.title = r.title ∧ r.title ≠ "" ∧
      pyStrip r.author = r.author ∧ pyStrip r.isbn = r.isbn ∧ r.year ≠ some 0) →
    ∀ db2 added, importLoop db2 exportHeader (l.map exportRow) added =
      ImpResult.ok (added + l.length)
        ⟨db2.books ++ freshRecs db2.nextId l, db2.nextId + l.length⟩ := by
  intro l
  induction l with
  | nil =>
    intro _ db2 added
    simp [importLoop, freshRecs]
  | cons r l ih =>
    intro hl db2 added
    obtain ⟨ht, hte, ha, hi, hy⟩ := hl r (List.mem_cons_self r l)
    have hl2 := fun x hx => hl x (List.mem_cons.2 (Or.inr hx))
    rw [List.map_cons]
    simp only [importLoop, if_neg (exportRow_ne_nil r), fv_title, fv_author,
      fv_year, fv_isbn, ht, if_neg hte, ha, hi, yearCell_roundtrip hy]
    rw [ih hl2 _ (added + 1)]
    simp only [add_book, orNone_eq_self hy, freshRecs, List.length_cons,
      List.append_assoc, List.singleton_append]
    congr 1
    · omega
    · congr 1
      push_cast
      ring

/-- C5 counterexample: a store whose single record has the non-empty
title made of one space; its export re-imports as zero records because
ingestion trims the title to empty and skips the row, so the round trip
does not add one record per exported record. -/
theorem C5_roundtrip_counterexample :
    (∀ r ∈ (⟨[⟨1, " ", "", none, "", "available", none⟩], 2⟩ : DB).books,
      r.title ≠ "") ∧
    import_csv_fileobj (⟨[⟨1, " ", "", none, "", "available", none⟩], 2⟩ : DB)
        (export_csv_bytes ⟨[⟨1, " ", "", none, "", "available", none⟩], 2⟩) =
      ImpResult.ok 0 ⟨[⟨1, " ", "", none, "", "available", none⟩], 2⟩ := by
  exact ⟨by decide, rfl⟩

/-- C5 amended: for a store whose records have titles that are non-empty
and unchanged by trimming, authors and isbns unchanged by trimming, and
no zero year, importing its export into any store adds exactly one
record per exported record carrying the original title, author, year
and isbn (with fresh ids, status `available`, no borrower — id, status
and borrower are not re-imported). -/
theorem C5_roundtrip_amended (db db2 : DB)
    (h : ∀ r ∈ db.books, pyStrip r.title = r.title ∧ r.title ≠ "" ∧
      pyStrip r.author = r.author ∧ pyStrip r.isbn = r.isbn ∧ r.year ≠ some 0) :
    import_csv_fileobj db2 (export_csv_bytes db) =
      ImpResult.ok db.books.length
        ⟨db2.books ++ freshRecs db2.nextId db.books,
          db2.nextId + db.books.length⟩ := by
  show importLoop db2 exportHeader (db.books.map exportRow) 0 = _
  rw [importLoop_exportRows db.books h db2 0]
  rw [Nat.zero_add]

/-- Witness for C5 amended: one-record store round trip, spelled out. -/
theorem C5_roundtrip_amended_witness :
    import_csv_fileobj emptyDB
        (export_csv_bytes ⟨[⟨7, "Dune", "Herbert", some 1965, "123", "issued",
          some "Alice"⟩], 8⟩) =
      ImpResult.ok 1
        ⟨[⟨1, "Dune", "Herbert", some 1965, "123", "available", none⟩], 2⟩ := by
  have h := C5_roundtrip_amended
    ⟨[⟨7, "Dune", "Herbert", some 1965, "123", "issued", some "Alice"⟩], 8⟩
    emptyDB (by decide)
  exact h.trans (by rfl)

end LibraryPy
